import Mathlib

/-!
# Verification of the EPIPHANY Engine core

Shallow embedding, in Lean 4, of the core of the TheEpiphanyEngine repository:

* `src/src/epiphany_engine/axiom/core_equation.py` — the intelligence formula
  (`compute_intelligence`), embedded twice: once over exact rationals
  (`compute_intelligence`, for claims about the clamped arithmetic) and once
  over a Python-float value domain with `nan`/`inf` special values and the
  Python `isinstance` validation loop (`compute_intelligence_py`, for claims
  about the validation behaviour).
* `src/engine/timesphere.py` — the `TimeSphere` simulation engine: per-step
  update-rule application (`TimeSphere.step`), the run loop with its optional
  history recording (`TimeSphere.simulate`), and trend analysis
  (`TimeSphere.analyze_trends`).
* `src/extensions/registry.py` together with `src/extensions/base.py` — the
  extension registry with its dual name/type index.

Python `float` values produced by in-range arithmetic are modelled as exact
rationals (`ℚ`); the special values `nan`, `+inf`, `-inf` are modelled
explicitly by `PyNum` where a claim depends on them.  Python `dict`s keyed by
strings are modelled as insertion-ordered association lists.
-/

/-! ## Core equation over exact rationals
    (`src/src/epiphany_engine/axiom/core_equation.py`, `compute_intelligence`)

The `validate` branch of the source only checks `isinstance(v, (int, float))`;
over a numeric-only value domain it can never raise, so the rational-valued
embedding omits it (it is modelled faithfully in `compute_intelligence_py`
below).  `clamp_to_unit` is kept as an explicit flag. -/

/-- Python `max(a, b)` on exact rationals: the second argument wins only when
it is strictly greater (the builtin keeps the first of equal items). -/
def qmax (a b : ℚ) : ℚ := if a < b then b else a

/-- Python `min(a, b)` on exact rationals. -/
def qmin (a b : ℚ) : ℚ := if b < a then b else a

/-- The components dict returned by `compute_intelligence` when
`return_components=True`: the clamped inputs plus the named products. -/
structure Components where
  A : ℚ
  B : ℚ
  C : ℚ
  ABC : ℚ
  X : ℚ
  Y : ℚ
  Z : ℚ
  XYZ : ℚ
  E_n : ℚ
  F_n : ℚ
  E_factor : ℚ
deriving DecidableEq

/-- `compute_intelligence` from `core_equation.py`, over exact rationals,
always with `return_components=True` (the score component of the pair is the
`return_components=False` result as well). -/
def compute_intelligence (A B C X Y Z E_n F_n : ℚ) (clamp_to_unit : Bool) :
    ℚ × Components :=
  let Ac := if clamp_to_unit then qmax 0 (qmin 1 A) else A
  let Bc := if clamp_to_unit then qmax 0 (qmin 1 B) else B
  let Cc := if clamp_to_unit then qmax 0 (qmin 1 C) else C
  let Xc := if clamp_to_unit then qmax 0 (qmin 1 X) else X
  let Yc := if clamp_to_unit then qmax 0 (qmin 1 Y) else Y
  let Zc := if clamp_to_unit then qmax 0 Z else Z
  let Ec := if clamp_to_unit then qmax 0 E_n else E_n
  let Fc := if clamp_to_unit then qmax (-1) F_n else F_n
  let ABC := Ac * Bc * Cc
  let XYZ := Xc * Yc * Zc
  let E_factor := Ec * (1 + Fc)
  let score := E_factor * XYZ * ABC
  (score, ⟨Ac, Bc, Cc, ABC, Xc, Yc, Zc, XYZ, Ec, Fc, E_factor⟩)

/-! ## Core equation over the Python float domain
    (`src/src/epiphany_engine/axiom/core_equation.py`, `compute_intelligence`,
    including the `validate` branch)

Python floats carry the special values `nan` and `±inf`; finite values are
modelled as exact rationals.  Python `min`/`max` are order-dependent in the
presence of `nan` (each comparison with `nan` is false, so the running
candidate is kept), which the definitions below reproduce. -/

/-- A Python float: a finite (exact) value or one of the special values. -/
inductive PyNum where
  | finite (q : ℚ)
  | posInf
  | negInf
  | nan
deriving DecidableEq

/-- Python `<` on floats: any comparison involving `nan` is false. -/
def pyLt : PyNum → PyNum → Bool
  | PyNum.nan, _ => false
  | _, PyNum.nan => false
  | PyNum.finite a, PyNum.finite b => if a < b then true else false
  | PyNum.negInf, PyNum.negInf => false
  | PyNum.negInf, PyNum.finite _ => true
  | PyNum.negInf, PyNum.posInf => true
  | PyNum.finite _, PyNum.negInf => false
  | PyNum.posInf, PyNum.negInf => false
  | PyNum.finite _, PyNum.posInf => true
  | PyNum.posInf, PyNum.finite _ => false
  | PyNum.posInf, PyNum.posInf => false

/-- Python `min(a, b)`: the candidate `a` is replaced only if `b < a`. -/
def pyMin (a b : PyNum) : PyNum := if pyLt b a then b else a

/-- Python `max(a, b)`: the candidate `a` is replaced only if `b > a`. -/
def pyMax (a b : PyNum) : PyNum := if pyLt a b then b else a

/-- Python float addition with the IEEE special-value rules. -/
def pyAdd : PyNum → PyNum → PyNum
  | PyNum.nan, _ => PyNum.nan
  | _, PyNum.nan => PyNum.nan
  | PyNum.finite a, PyNum.finite b => PyNum.finite (a + b)
  | PyNum.posInf, PyNum.negInf => PyNum.nan
  | PyNum.negInf, PyNum.posInf => PyNum.nan
  | PyNum.posInf, _ => PyNum.posInf
  | _, PyNum.posInf => PyNum.posInf
  | PyNum.negInf, _ => PyNum.negInf
  | _, PyNum.negInf => PyNum.negInf

/-- Python float multiplication with the IEEE special-value rules
(`0 * inf = nan`). -/
def pyMul : PyNum → PyNum → PyNum
  | PyNum.nan, _ => PyNum.nan
  | _, PyNum.nan => PyNum.nan
  | PyNum.finite a, PyNum.finite b => PyNum.finite (a * b)
  | PyNum.posInf, PyNum.posInf => PyNum.posInf
  | PyNum.posInf, PyNum.negInf => PyNum.negInf
  | PyNum.negInf, PyNum.posInf => PyNum.negInf
  | PyNum.negInf, PyNum.negInf => PyNum.posInf
  | PyNum.posInf, PyNum.finite b =>
      if b = 0 then PyNum.nan else if 0 < b then PyNum.posInf else PyNum.negInf
  | PyNum.finite a, PyNum.posInf =>
      if a = 0 then PyNum.nan else if 0 < a then PyNum.posInf else PyNum.negInf
  | PyNum.negInf, PyNum.finite b =>
      if b = 0 then PyNum.nan else if 0 < b then PyNum.negInf else PyNum.posInf
  | PyNum.finite a, PyNum.negInf =>
      if a = 0 then PyNum.nan else if 0 < a then PyNum.negInf else PyNum.posInf

/-- A Python value passed for one of the eight factors: a float (or int,
identified with its float value), or a value of some non-numeric type. -/
inductive PyVal where
  | num (x : PyNum)
  | other (typeName : String)
deriving DecidableEq

/-- The `validate` loop of `compute_intelligence`: walk the inputs dict in
insertion order and raise `TypeError` on the first value that is not an
`int`/`float` instance.  Finiteness is NOT checked. -/
def validateLoop : List (String × PyVal) → Except String Unit
  | [] => Except.ok ()
  | (_, PyVal.num _) :: rest => validateLoop rest
  | (k, PyVal.other t) :: _ => Except.error (k ++ " must be numeric, got " ++ t)

/-- The first field (in dict insertion order) holding a non-numeric value,
with its type name. -/
def firstNonNumeric : List (String × PyVal) → Option (String × String)
  | [] => none
  | (_, PyVal.num _) :: rest => firstNonNumeric rest
  | (k, PyVal.other t) :: _ => some (k, t)

/-- Python `float(v)`: identity on numbers, raises on non-numeric types. -/
def pyFloat : PyVal → Except String PyNum
  | PyVal.num x => Except.ok x
  | PyVal.other t => Except.error ("could not convert " ++ t ++ " to float")

/-- `compute_intelligence` over Python values, with the `validate` and
`clamp_to_unit` branches of the source and `return_components=False`. -/
def compute_intelligence_py (A B C X Y Z E_n F_n : PyVal)
    (validate clamp_to_unit : Bool) : Except String PyNum :=
  let inputs := [("A", A), ("B", B), ("C", C), ("X", X), ("Y", Y), ("Z", Z),
                 ("E_n", E_n), ("F_n", F_n)]
  match (if validate then validateLoop inputs else Except.ok ()) with
  | Except.error msg => Except.error msg
  | Except.ok _ => do
    let a ← pyFloat A
    let b ← pyFloat B
    let c ← pyFloat C
    let x ← pyFloat X
    let y ← pyFloat Y
    let z ← pyFloat Z
    let en ← pyFloat E_n
    let fn ← pyFloat F_n
    let aC := if clamp_to_unit then pyMax (PyNum.finite 0) (pyMin (PyNum.finite 1) a) else a
    let bC := if clamp_to_unit then pyMax (PyNum.finite 0) (pyMin (PyNum.finite 1) b) else b
    let cC := if clamp_to_unit then pyMax (PyNum.finite 0) (pyMin (PyNum.finite 1) c) else c
    let xC := if clamp_to_unit then pyMax (PyNum.finite 0) (pyMin (PyNum.finite 1) x) else x
    let yC := if clamp_to_unit then pyMax (PyNum.finite 0) (pyMin (PyNum.finite 1) y) else y
    let zC := if clamp_to_unit then pyMax (PyNum.finite 0) z else z
    let eC := if clamp_to_unit then pyMax (PyNum.finite 0) en else en
    let fC := if clamp_to_unit then pyMax (PyNum.finite (-1)) fn else fn
    let ABC := pyMul (pyMul aC bC) cC
    let XYZ := pyMul (pyMul xC yC) zC
    let E_factor := pyMul eC (pyAdd (PyNum.finite 1) fC)
    Except.ok (pyMul (pyMul E_factor XYZ) ABC)

/-! ## Simulation engine (`src/engine/timesphere.py`)

`AxiomInputs` (from `src/engine/state.py`) is an eight-field dataclass whose
`to_dict` / `AxiomInputs(**d)` round-trip is the identity; it is modelled as
a total map from the eight field names to values.  A `TimeSphere` instance
carries `update_rules` (a dict, modelled as an association list with distinct
keys), `event_handlers` (a list) and the initial state; they are passed
explicitly to the methods below. -/

/-- The eight input-variable names. -/
inductive Var where
  | A
  | B
  | C
  | X
  | Y
  | Z
  | E_n
  | F_n
deriving DecidableEq

/-- `AxiomInputs`: the eight named numeric fields, as a total map. -/
def AxiomInputs : Type := Var → ℚ

/-- `SystemState`: a step index, the inputs, and opaque metadata. -/
structure SystemState where
  step : ℕ
  inputs : AxiomInputs
  metadata : List (String × String)

/-- `IntelligenceSnapshot`: score plus components for one step. -/
structure IntelligenceSnapshot where
  step : ℕ
  score : ℚ
  components : Components

/-- `TimeStep`: the unit of history. -/
structure TimeStep where
  step : ℕ
  state : SystemState
  intelligence : IntelligenceSnapshot
  events : List String

/-- An update rule: `(current_state, step_number) -> new_value`. -/
def Rule : Type := SystemState → ℕ → ℚ

/-- An event handler: `(state, step) -> optional event description`. -/
def EventHandler : Type := SystemState → ℕ → Option String

/-- The run summary dict produced by `TimeSphere.simulate`.  `growth_rate`
is a Python float that can be the `float("inf")` sentinel. -/
structure Summary where
  total_steps : ℤ
  initial_intelligence : ℚ
  final_intelligence : ℚ
  max_intelligence : ℚ
  min_intelligence : ℚ
  avg_intelligence : ℚ
  growth_rate : PyNum

/-- `SimulationResult`: the recorded timeline plus the summary. -/
structure SimulationResult where
  steps : List TimeStep
  summary : Summary

/-- `compute_intelligence(**inputs.to_dict(), return_components=True)` with
the source defaults (`validate=True` is vacuous on numeric fields,
`clamp_to_unit=True`). -/
def evalIntelligence (i : AxiomInputs) : ℚ × Components :=
  compute_intelligence (i Var.A) (i Var.B) (i Var.C) (i Var.X) (i Var.Y)
    (i Var.Z) (i Var.E_n) (i Var.F_n) true

/-- The new-inputs dict of `TimeSphere.step`: start from the previous
inputs and overwrite each rule-bound variable with its rule's value on the
PREVIOUS state and the step number. -/
def applyRules (rules : List (Var × Rule)) (s : SystemState) (k : ℕ) :
    AxiomInputs :=
  rules.foldl (fun d vr => Function.update d vr.1 (vr.2 s k)) s.inputs

/-- `TimeSphere.step`: build the new inputs from the update rules, evaluate
the formula, assemble the new state and snapshot, and run event handlers
(a falsy — absent or empty — result is not recorded). -/
def TimeSphere.step (rules : List (Var × Rule)) (handlers : List EventHandler)
    (current_state : SystemState) (step_num : ℕ) : TimeStep :=
  let new_inputs := applyRules rules current_state step_num
  let computed := evalIntelligence new_inputs
  let new_state : SystemState := ⟨step_num, new_inputs, current_state.metadata⟩
  let snapshot : IntelligenceSnapshot := ⟨step_num, computed.1, computed.2⟩
  let events :=
    (handlers.filterMap (fun h => h new_state step_num)).filter (fun e => e ≠ "")
  ⟨step_num, new_state, snapshot, events⟩

/-- The `for step_num in range(1, steps + 1)` loop of `TimeSphere.simulate`:
returns the time steps appended to `history` (none when
`record_history=False`) and the final current state.  `k` is the next step
number, `n` the number of remaining iterations. -/
def simLoop (rules : List (Var × Rule)) (handlers : List EventHandler)
    (record_history : Bool) (cur : SystemState) (k : ℕ) :
    ℕ → List TimeStep × SystemState
  | 0 => ([], cur)
  | Nat.succ n =>
    let ts := TimeSphere.step rules handlers cur k
    let rest := simLoop rules handlers record_history ts.state (k + 1) n
    ((if record_history then ts :: rest.1 else rest.1), rest.2)

/-- Python `max` over a nonempty list of floats (first element is the
initial candidate); defaults to `0` on `[]`, which cannot happen here. -/
def listMax : List ℚ → ℚ
  | [] => 0
  | q :: t => t.foldl qmax q

/-- Python `min` over a nonempty list of floats. -/
def listMin : List ℚ → ℚ
  | [] => 0
  | q :: t => t.foldl qmin q

/-- `TimeSphere.simulate`: record the initial state, run the loop, then
derive the summary statistics from the RECORDED history list. -/
def TimeSphere.simulate (rules : List (Var × Rule))
    (handlers : List EventHandler) (initial_state : SystemState)
    (steps : ℤ) (record_history : Bool) : SimulationResult :=
  let initComputed := evalIntelligence initial_state.inputs
  let initial_timestep : TimeStep :=
    ⟨0, initial_state, ⟨0, initComputed.1, initComputed.2⟩, ["Simulation started"]⟩
  let looped := simLoop rules handlers record_history initial_state 1 steps.toNat
  let history := initial_timestep :: looped.1
  let intelligence_scores := history.map (fun ts => ts.intelligence.score)
  let first := intelligence_scores.headD 0
  let last := intelligence_scores.getLastD 0
  let summary : Summary :=
    ⟨steps, first, last, listMax intelligence_scores, listMin intelligence_scores,
     intelligence_scores.sum / (intelligence_scores.length : ℚ),
     if first = 0 then PyNum.posInf else PyNum.finite ((last - first) / first)⟩
  ⟨history, summary⟩

/-- The qualitative trend classifications of `TimeSphere.analyze_trends`. -/
inductive Trend where
  | insufficient_data
  | accelerating_growth
  | declining
  | stable
deriving DecidableEq

/-- One inflection point entry (its `type` field is always the string
`significant_change` in the source and is omitted). -/
structure InflectionPoint where
  step : ℕ
  score : ℚ

/-- The dict returned by `TimeSphere.analyze_trends` on a nonempty history. -/
structure TrendInfo where
  trend : Trend
  inflection_points : List InflectionPoint
  total_events : ℕ
  score_volatility : ℚ

/-- The recorded score sequence: `scores = [ts.intelligence.score for ts
in self.history]`. -/
def scoresOf (history : List TimeStep) : List ℚ :=
  history.map (fun ts => ts.intelligence.score)

/-- `sum(scores[: len(scores) // 2]) / (len(scores) // 2)`. -/
def firstHalfAvg (scores : List ℚ) : ℚ :=
  (scores.take (scores.length / 2)).sum / ((scores.length / 2 : ℕ) : ℚ)

/-- `sum(scores[len(scores) // 2 :]) / (len(scores) - len(scores) // 2)`. -/
def secondHalfAvg (scores : List ℚ) : ℚ :=
  (scores.drop (scores.length / 2)).sum /
    ((scores.length - scores.length / 2 : ℕ) : ℚ)

/-- `TimeSphere.analyze_trends` over a recorded history; the empty history
returns the error dict. -/
def TimeSphere.analyze_trends (history : List TimeStep) :
    Except String TrendInfo :=
  if history.isEmpty then Except.error "No simulation history available"
  else
    let scores := scoresOf history
    let n := scores.length
    let trend :=
      if n < 3 then Trend.insufficient_data
      else
        if secondHalfAvg scores > firstHalfAvg scores * (11 / 10) then
          Trend.accelerating_growth
        else if secondHalfAvg scores < firstHalfAvg scores * (9 / 10) then
          Trend.declining
        else Trend.stable
    let inflection_points :=
      (List.range n).filterMap (fun i =>
        if 1 ≤ i ∧ i + 1 < n then
          let delta_before := scores.getD i 0 - scores.getD (i - 1) 0
          let delta_after := scores.getD (i + 1) 0 - scores.getD i 0
          if |delta_after - delta_before| > (1 / 10) * scores.getD i 0 then
            some ⟨(history.map (fun ts => ts.step)).getD i 0, scores.getD i 0⟩
          else none
        else none)
    Except.ok ⟨trend, inflection_points,
      (history.map (fun ts => ts.events.length)).sum,
      if scores = [] then 0 else listMax scores - listMin scores⟩

/-- A constant update rule sending its variable to `0`. -/
def demoRuleA : Rule := fun _ _ => 0

/-- A rules dict binding only variable `A`. -/
def demoRules : List (Var × Rule) := [(Var.A, demoRuleA)]

/-- Initial inputs: every factor `1` except `F_n = 0` (score exactly `1`). -/
def onesInputs : AxiomInputs := fun v =>
  match v with
  | Var.F_n => 0
  | _ => 1

/-- Initial state for the demonstration runs. -/
def demoState : SystemState := ⟨0, onesInputs, []⟩

/-- All-zero initial inputs, whose initial score is `0`. -/
def zeroInputs : AxiomInputs := fun _ => 0

/-- Initial state with all-zero inputs. -/
def zeroState : SystemState := ⟨0, zeroInputs, []⟩

/-- A fixed components record for hand-built history entries. -/
def constComponents : Components := ⟨1, 1, 1, 1, 1, 1, 1, 1, 1, 0, 1⟩

/-- A hand-built history record with a given step index and score. -/
def trivialTs (k : ℕ) (q : ℚ) : TimeStep :=
  ⟨k, ⟨k, onesInputs, []⟩, ⟨k, q, constComponents⟩, []⟩

/-- A two-record history (too short for trend classification). -/
def shortHistory : List TimeStep := [trivialTs 0 1, trivialTs 1 1]

/-! ## Extension registry (`src/extensions/registry.py`, `src/extensions/base.py`)

An extension class is modelled by its `__name__` together with the declared
capability kind it inherits from one of the five abstract bases in
`base.py`.  An extension instance carries its unique name, version, enabled
flag (set `True` by `BaseExtension.__init__`), its concrete class, and
whether its `initialize()` hook raises (the hook is user code; its outcome
is modelled as a flag).  The two dicts `_extensions` and
`_extensions_by_type` are insertion-ordered association lists. -/

/-- The five declared capability kinds of `base.py`. -/
inductive CapKind where
  | updateRule
  | eventHandler
  | integration
  | domainModel
  | analysis
deriving DecidableEq

/-- An extension class: its `__name__` and its declared capability kind. -/
structure ExtClass where
  className : String
  kind : CapKind
deriving DecidableEq

/-- `base.py`: `class UpdateRuleExtension(BaseExtension)`. -/
def UpdateRuleExtension : ExtClass := ⟨"UpdateRuleExtension", CapKind.updateRule⟩

/-- `base.py`: `class EventHandlerExtension(BaseExtension)`. -/
def EventHandlerExtension : ExtClass := ⟨"EventHandlerExtension", CapKind.eventHandler⟩

/-- `examples/momentum_update_rule.py`:
`class MomentumUpdateRule(UpdateRuleExtension)` — an update-rule provider. -/
def MomentumUpdateRule : ExtClass := ⟨"MomentumUpdateRule", CapKind.updateRule⟩

/-- `examples/threshold_alert.py`:
`class ThresholdAlertHandler(EventHandlerExtension)`. -/
def ThresholdAlertHandler : ExtClass := ⟨"ThresholdAlertHandler", CapKind.eventHandler⟩

/-- An extension instance. -/
structure Extension where
  name : String
  version : String
  enabled : Bool
  cls : ExtClass
  initRaises : Bool
deriving DecidableEq

/-- Dict lookup on an insertion-ordered association list. -/
def alookup {β : Type} : List (String × β) → String → Option β
  | [], _ => none
  | (k, w) :: t, key => if k = key then some w else alookup t key

/-- Dict update: overwrite in place if the key exists, else append. -/
def aset {β : Type} : List (String × β) → String → β → List (String × β)
  | [], key, v => [(key, v)]
  | (k, w) :: t, key, v =>
    if k = key then (key, v) :: t else (k, w) :: aset t key v

/-- The registry state: `_extensions` and `_extensions_by_type`. -/
structure ExtensionRegistry where
  extensions : List (String × Extension)
  extensions_by_type : List (String × List Extension)
deriving DecidableEq

/-- A freshly constructed registry. -/
def emptyRegistry : ExtensionRegistry := ⟨[], []⟩

/-- Faults raised by `register`. -/
inductive RegError where
  | duplicateName (name : String)
  | initFailure
deriving DecidableEq

/-- `ExtensionRegistry.register`: raise on duplicate name; otherwise store
the extension in the name index, then in the type index (keyed by
`type(extension).__name__`), and only then call `extension.initialize()` —
when the hook raises, the already-updated registry state persists. -/
def ExtensionRegistry.register (reg : ExtensionRegistry) (e : Extension) :
    Except RegError Unit × ExtensionRegistry :=
  if (alookup reg.extensions e.name).isSome then
    (Except.error (RegError.duplicateName e.name), reg)
  else
    let byName := reg.extensions ++ [(e.name, e)]
    let byType :=
      match alookup reg.extensions_by_type e.cls.className with
      | some l => aset reg.extensions_by_type e.cls.className (l ++ [e])
      | none => reg.extensions_by_type ++ [(e.cls.className, [e])]
    let reg' : ExtensionRegistry := ⟨byName, byType⟩
    if e.initRaises then (Except.error RegError.initFailure, reg')
    else (Except.ok (), reg')

/-- `ExtensionRegistry.get`: name lookup, `None` when absent. -/
def ExtensionRegistry.get (reg : ExtensionRegistry) (name : String) :
    Option Extension :=
  alookup reg.extensions name

/-- `ExtensionRegistry.get_by_type`: the type-index bucket for the queried
class's `__name__`, or `[]`. -/
def ExtensionRegistry.get_by_type (reg : ExtensionRegistry)
    (extension_type : ExtClass) : List Extension :=
  (alookup reg.extensions_by_type extension_type.className).getD []

/-- Well-formedness of the dual index: every bucket entry is keyed by its
own class name and is registered by name, and every registered extension
appears in its class-name bucket. -/
def RegistryWF (reg : ExtensionRegistry) : Prop :=
  (∀ p ∈ reg.extensions_by_type, ∀ e ∈ p.2,
    e.cls.className = p.1 ∧ alookup reg.extensions e.name = some e) ∧
  (∀ p ∈ reg.extensions, p.2 ∈ reg.get_by_type p.2.cls)

/-- The repository's example update-rule extension, registered under the
name `momentum`: an instance of `MomentumUpdateRule`, a subclass of
`UpdateRuleExtension`. -/
def momentumExt : Extension := ⟨"momentum", "1.0.0", true, MomentumUpdateRule, false⟩

/-- The registry after successfully registering `momentumExt`. -/
def regWithMomentum : ExtensionRegistry :=
  (emptyRegistry.register momentumExt).2

/-- An extension whose `initialize()` hook raises. -/
def badInitExt : Extension := ⟨"bad", "1.0.0", true, ThresholdAlertHandler, true⟩

/-! ## Theorems -/

theorem qmax_eq_max (a b : ℚ) : qmax a b = max a b := by
  simp only [qmax, max_def]
  split_ifs <;> first | rfl | linarith

theorem qmin_eq_min (a b : ℚ) : qmin a b = min a b := by
  simp only [qmin, min_def]
  split_ifs <;> first | rfl | linarith

/-- Helper: the unit clamp of `0` is `0`. -/
theorem clamp01_zero : qmax 0 (qmin 1 (0 : ℚ)) = 0 := by
  norm_num [qmax, qmin]

/-- C3: with clamping enabled, `compute_intelligence` returns
`E_n · (1 + F_n) · X · Y · Z · (A · B · C)` evaluated on the clamped values,
reports `ABC`, `XYZ` and the growth term `E_n·(1+F_n)` in the components,
the score is `0` whenever any clamped factor among A, B, C, X, Y, Z is `0`,
and the all-ones input with `F_n = 0` scores exactly `1`. -/
theorem compute_intelligence_formula (A B C X Y Z E_n F_n : ℚ) :
    (compute_intelligence A B C X Y Z E_n F_n true).1 =
      qmax 0 E_n * (1 + qmax (-1) F_n) * qmax 0 (qmin 1 X) * qmax 0 (qmin 1 Y) *
        qmax 0 Z * (qmax 0 (qmin 1 A) * qmax 0 (qmin 1 B) * qmax 0 (qmin 1 C)) ∧
    (compute_intelligence A B C X Y Z E_n F_n true).2.ABC =
      qmax 0 (qmin 1 A) * qmax 0 (qmin 1 B) * qmax 0 (qmin 1 C) ∧
    (compute_intelligence A B C X Y Z E_n F_n true).2.XYZ =
      qmax 0 (qmin 1 X) * qmax 0 (qmin 1 Y) * qmax 0 Z ∧
    (compute_intelligence A B C X Y Z E_n F_n true).2.E_factor =
      qmax 0 E_n * (1 + qmax (-1) F_n) ∧
    ((qmax 0 (qmin 1 A) = 0 ∨ qmax 0 (qmin 1 B) = 0 ∨ qmax 0 (qmin 1 C) = 0 ∨
        qmax 0 (qmin 1 X) = 0 ∨ qmax 0 (qmin 1 Y) = 0 ∨ qmax 0 Z = 0) →
      (compute_intelligence A B C X Y Z E_n F_n true).1 = 0) ∧
    (compute_intelligence 1 1 1 1 1 1 1 0 true).1 = 1 := by
  refine ⟨by simp only [compute_intelligence, if_true]; ring, rfl, rfl, rfl, ?_,
    by norm_num [compute_intelligence, qmax, qmin]⟩
  intro h
  simp only [compute_intelligence, if_true]
  rcases h with h | h | h | h | h | h <;> rw [h] <;> ring

/-- Witness for C3 at the concrete input `A = 0`, all other factors benign. -/
theorem compute_intelligence_formula_witness :
    (compute_intelligence 0 1 1 1 1 1 1 0 true).1 = 0 :=
  (compute_intelligence_formula 0 1 1 1 1 1 1 0).2.2.2.2.1 (Or.inl clamp01_zero)

/-- Helper: when no field is non-numeric, the validation loop passes. -/
theorem validateLoop_of_none (l : List (String × PyVal))
    (h : firstNonNumeric l = none) : validateLoop l = Except.ok () := by
  induction l with
  | nil => rfl
  | cons p rest ih =>
    obtain ⟨k, v⟩ := p
    cases v with
    | num x => exact ih (by simpa [firstNonNumeric] using h)
    | other t => simp [firstNonNumeric] at h

/-- Helper: the validation loop raises on the first non-numeric field. -/
theorem validateLoop_of_some (l : List (String × PyVal)) (k t : String)
    (h : firstNonNumeric l = some (k, t)) :
    validateLoop l = Except.error (k ++ " must be numeric, got " ++ t) := by
  induction l with
  | nil => simp [firstNonNumeric] at h
  | cons p rest ih =>
    obtain ⟨k', v⟩ := p
    cases v with
    | num x => exact ih (by simpa [firstNonNumeric] using h)
    | other t' =>
      simp only [firstNonNumeric, Option.some.injEq, Prod.mk.injEq] at h
      simp [validateLoop, h.1, h.2]

/-- C4 counterexample: with `validate=True` a non-finite factor
(`E_n = +inf`, all other factors finite) does NOT raise; the call returns
the score `+inf`. -/
theorem compute_intelligence_py_nonfinite_returns :
    compute_intelligence_py (PyVal.num (PyNum.finite 1)) (PyVal.num (PyNum.finite 1))
      (PyVal.num (PyNum.finite 1)) (PyVal.num (PyNum.finite 1)) (PyVal.num (PyNum.finite 1))
      (PyVal.num (PyNum.finite 1)) (PyVal.num PyNum.posInf) (PyVal.num (PyNum.finite 0))
      true true = Except.ok PyNum.posInf := by
  norm_num [compute_intelligence_py, validateLoop, pyFloat, pyMax, pyMin, pyLt,
    pyAdd, pyMul, bind, Except.bind]

/-- C4 amended: with `validate=True`, `compute_intelligence` raises a
`TypeError` naming the offending field exactly when some factor is not an
`int`/`float` instance (the first such field in dict order); any call whose
eight factors are all numeric — finite or not — returns a score instead of
raising. -/
theorem compute_intelligence_py_validate_behaviour
    (A B C X Y Z E_n F_n : PyVal) (clamp_to_unit : Bool) :
    (firstNonNumeric [("A", A), ("B", B), ("C", C), ("X", X), ("Y", Y), ("Z", Z),
        ("E_n", E_n), ("F_n", F_n)] = none →
      ∃ s, compute_intelligence_py A B C X Y Z E_n F_n true clamp_to_unit =
        Except.ok s) ∧
    (∀ k t, firstNonNumeric [("A", A), ("B", B), ("C", C), ("X", X), ("Y", Y),
        ("Z", Z), ("E_n", E_n), ("F_n", F_n)] = some (k, t) →
      compute_intelligence_py A B C X Y Z E_n F_n true clamp_to_unit =
        Except.error (k ++ " must be numeric, got " ++ t)) := by
  constructor
  · intro h
    have hA : ∃ a, A = PyVal.num a := by
      cases A with
      | num a => exact ⟨a, rfl⟩
      | other t => simp [firstNonNumeric] at h
    obtain ⟨a, rfl⟩ := hA
    have hB : ∃ b, B = PyVal.num b := by
      cases B with
      | num b => exact ⟨b, rfl⟩
      | other t => simp [firstNonNumeric] at h
    obtain ⟨b, rfl⟩ := hB
    have hC : ∃ c, C = PyVal.num c := by
      cases C with
      | num c => exact ⟨c, rfl⟩
      | other t => simp [firstNonNumeric] at h
    obtain ⟨c, rfl⟩ := hC
    have hX : ∃ x, X = PyVal.num x := by
      cases X with
      | num x => exact ⟨x, rfl⟩
      | other t => simp [firstNonNumeric] at h
    obtain ⟨x, rfl⟩ := hX
    have hY : ∃ y, Y = PyVal.num y := by
      cases Y with
      | num y => exact ⟨y, rfl⟩
      | other t => simp [firstNonNumeric] at h
    obtain ⟨y, rfl⟩ := hY
    have hZ : ∃ z, Z = PyVal.num z := by
      cases Z with
      | num z => exact ⟨z, rfl⟩
      | other t => simp [firstNonNumeric] at h
    obtain ⟨z, rfl⟩ := hZ
    have hE : ∃ en, E_n = PyVal.num en := by
      cases E_n with
      | num en => exact ⟨en, rfl⟩
      | other t => simp [firstNonNumeric] at h
    obtain ⟨en, rfl⟩ := hE
    have hF : ∃ fn, F_n = PyVal.num fn := by
      cases F_n with
      | num fn => exact ⟨fn, rfl⟩
      | other t => simp [firstNonNumeric] at h
    obtain ⟨fn, rfl⟩ := hF
    exact ⟨_, rfl⟩
  · intro k t h
    have hv := validateLoop_of_some _ k t h
    simp [compute_intelligence_py, hv]

/-- Witness for C4 amended: a `nan` factor passes validation and the call
returns a score; a string-valued factor raises naming the field `B`. -/
theorem compute_intelligence_py_validate_behaviour_witness :
    (∃ s, compute_intelligence_py (PyVal.num PyNum.nan) (PyVal.num (PyNum.finite 1))
      (PyVal.num (PyNum.finite 1)) (PyVal.num (PyNum.finite 1)) (PyVal.num (PyNum.finite 1))
      (PyVal.num (PyNum.finite 1)) (PyVal.num (PyNum.finite 1)) (PyVal.num (PyNum.finite 0))
      true true = Except.ok s) ∧
    compute_intelligence_py (PyVal.num (PyNum.finite 1)) (PyVal.other "str")
      (PyVal.num (PyNum.finite 1)) (PyVal.num (PyNum.finite 1)) (PyVal.num (PyNum.finite 1))
      (PyVal.num (PyNum.finite 1)) (PyVal.num (PyNum.finite 1)) (PyVal.num (PyNum.finite 0))
      true true = Except.error ("B" ++ " must be numeric, got " ++ "str") :=
  ⟨(compute_intelligence_py_validate_behaviour (PyVal.num PyNum.nan)
      (PyVal.num (PyNum.finite 1)) (PyVal.num (PyNum.finite 1)) (PyVal.num (PyNum.finite 1))
      (PyVal.num (PyNum.finite 1)) (PyVal.num (PyNum.finite 1)) (PyVal.num (PyNum.finite 1))
      (PyVal.num (PyNum.finite 0)) true).1 rfl,
   (compute_intelligence_py_validate_behaviour (PyVal.num (PyNum.finite 1))
      (PyVal.other "str") (PyVal.num (PyNum.finite 1)) (PyVal.num (PyNum.finite 1))
      (PyVal.num (PyNum.finite 1)) (PyVal.num (PyNum.finite 1)) (PyVal.num (PyNum.finite 1))
      (PyVal.num (PyNum.finite 0)) true).2 "B" "str" rfl⟩

/-- Helper: the new-inputs dict leaves variables without a registered rule
untouched, whatever it started from. -/
theorem foldl_update_of_notMem (rules : List (Var × Rule)) (s : SystemState)
    (k : ℕ) (d : AxiomInputs) (v : Var) (hv : v ∉ rules.map Prod.fst) :
    rules.foldl (fun d vr => Function.update d vr.1 (vr.2 s k)) d v = d v := by
  induction rules generalizing d with
  | nil => rfl
  | cons p rest ih =>
    simp only [List.map_cons, List.mem_cons, not_or] at hv
    simp only [List.foldl_cons]
    rw [ih _ hv.2, Function.update_noteq hv.1]

/-- Helper: with distinct keys, the new-inputs dict maps each rule-bound
variable to its rule's value on the given state and step number. -/
theorem foldl_update_of_mem (rules : List (Var × Rule)) (s : SystemState)
    (k : ℕ) (v : Var) (r : Rule) :
    (rules.map Prod.fst).Nodup → (v, r) ∈ rules →
    ∀ d : AxiomInputs,
      rules.foldl (fun d vr => Function.update d vr.1 (vr.2 s k)) d v = r s k := by
  induction rules with
  | nil =>
    intro _ hm
    cases hm
  | cons p rest ih =>
    obtain ⟨v', r'⟩ := p
    intro hnd hm d
    simp only [List.map_cons, List.nodup_cons] at hnd
    simp only [List.foldl_cons]
    rcases List.mem_cons.mp hm with h | h
    · injection h with h1 h2
      subst h1
      subst h2
      rw [foldl_update_of_notMem rest s k _ v hnd.1, Function.update_same]
    · exact ih hnd.2 h _

/-- C2: at each step `k`, every registered variable→rule binding is
evaluated on the PREVIOUS state and the step number `k` (so no rule ever
observes another rule's step-`k` output), and every variable without a
registered rule keeps its previous value in the new inputs. -/
theorem step_rule_evaluation (rules : List (Var × Rule))
    (hnd : (rules.map Prod.fst).Nodup) (handlers : List EventHandler)
    (s : SystemState) (k : ℕ) :
    (∀ v r, (v, r) ∈ rules →
      (TimeSphere.step rules handlers s k).state.inputs v = r s k) ∧
    (∀ v, v ∉ rules.map Prod.fst →
      (TimeSphere.step rules handlers s k).state.inputs v = s.inputs v) :=
  ⟨fun v r hm => foldl_update_of_mem rules s k v r hnd hm s.inputs,
   fun v hv => foldl_update_of_notMem rules s k s.inputs v hv⟩

/-- Witness for C2: with the single rule on `A`, step 1 sets `A` to the
rule's value on the previous state and leaves `B` unchanged. -/
theorem step_rule_evaluation_witness :
    (TimeSphere.step demoRules [] demoState 1).state.inputs Var.A = 0 ∧
    (TimeSphere.step demoRules [] demoState 1).state.inputs Var.B = 1 :=
  ⟨(step_rule_evaluation demoRules (by simp [demoRules]) [] demoState 1).1
      Var.A demoRuleA (by simp [demoRules]),
   ((step_rule_evaluation demoRules (by simp [demoRules]) [] demoState 1).2
      Var.B (by simp [demoRules])).trans rfl⟩

/-- Helper: with history recording on, the loop produces one record per
iteration, with step numbers `k, k+1, ...` in order. -/
theorem simLoop_recorded (rules : List (Var × Rule))
    (handlers : List EventHandler) :
    ∀ (n k : ℕ) (cur : SystemState),
      (simLoop rules handlers true cur k n).1.length = n ∧
      (simLoop rules handlers true cur k n).1.map TimeStep.step =
        List.range' k n := by
  intro n
  induction n with
  | zero =>
    intro k cur
    exact ⟨rfl, rfl⟩
  | succ n ih =>
    intro k cur
    have h := ih (k + 1) (TimeSphere.step rules handlers cur k).state
    constructor
    · simp only [simLoop, if_true, List.length_cons, h.1]
    · simp only [simLoop, if_true, List.map_cons, h.2, List.range'_succ]
      rfl

/-- C5: `simulate(steps=N)` with history recording returns exactly `N + 1`
records whose step indices are `0, 1, ..., N` in order (no gaps, no
duplicates); for `N = 0` the history is the single initial record and the
four summary scores coincide. -/
theorem simulate_history_structure (N : ℕ) (rules : List (Var × Rule))
    (handlers : List EventHandler) (init : SystemState) :
    (TimeSphere.simulate rules handlers init (N : ℤ) true).steps.length = N + 1 ∧
    (TimeSphere.simulate rules handlers init (N : ℤ) true).steps.map TimeStep.step =
      List.range (N + 1) ∧
    (N = 0 →
      (TimeSphere.simulate rules handlers init (N : ℤ) true).summary.final_intelligence =
        (TimeSphere.simulate rules handlers init (N : ℤ) true).summary.initial_intelligence ∧
      (TimeSphere.simulate rules handlers init (N : ℤ) true).summary.max_intelligence =
        (TimeSphere.simulate rules handlers init (N : ℤ) true).summary.initial_intelligence ∧
      (TimeSphere.simulate rules handlers init (N : ℤ) true).summary.min_intelligence =
        (TimeSphere.simulate rules handlers init (N : ℤ) true).summary.initial_intelligence) := by
  have htoNat : ((N : ℤ)).toNat = N := Int.toNat_natCast N
  have h := simLoop_recorded rules handlers N 1 init
  refine ⟨?_, ?_, ?_⟩
  · simp only [TimeSphere.simulate, htoNat, List.length_cons, h.1]
  · simp only [TimeSphere.simulate, htoNat, List.map_cons, h.2]
    rw [List.range_eq_range', List.range'_succ]
  · intro hN
    subst hN
    simp only [TimeSphere.simulate, htoNat]
    exact ⟨rfl, rfl, rfl⟩

/-- Witness for C5 at `N = 0`: the trivial summary clause is realized. -/
theorem simulate_history_structure_witness :
    (TimeSphere.simulate demoRules [] demoState (0 : ℕ) true).steps.length = 0 + 1 ∧
    (TimeSphere.simulate demoRules [] demoState (0 : ℕ) true).summary.final_intelligence =
      (TimeSphere.simulate demoRules [] demoState (0 : ℕ) true).summary.initial_intelligence :=
  ⟨(simulate_history_structure 0 demoRules [] demoState).1,
   ((simulate_history_structure 0 demoRules [] demoState).2.2 rfl).1⟩

/-- C6: whenever the initial step's score is exactly `0`, `simulate` reports
the `growth_rate` sentinel `float("inf")` instead of dividing by zero. -/
theorem simulate_growth_rate_sentinel (rules : List (Var × Rule))
    (handlers : List EventHandler) (init : SystemState) (steps : ℤ)
    (record_history : Bool)
    (h : (evalIntelligence init.inputs).1 = 0) :
    (TimeSphere.simulate rules handlers init steps record_history).summary.growth_rate =
      PyNum.posInf := by
  simp only [TimeSphere.simulate, List.map_cons, List.headD_cons]
  rw [if_pos h]

/-- Helper: the all-zero inputs score exactly `0`. -/
theorem evalIntelligence_zeroInputs : (evalIntelligence zeroInputs).1 = 0 := by
  norm_num [evalIntelligence, zeroInputs, compute_intelligence, qmax, qmin]

/-- Witness for C6: a two-step run from the all-zero initial state reports
the infinity sentinel. -/
theorem simulate_growth_rate_sentinel_witness :
    (TimeSphere.simulate demoRules [] zeroState 2 true).summary.growth_rate =
      PyNum.posInf :=
  simulate_growth_rate_sentinel demoRules [] zeroState 2 true
    evalIntelligence_zeroInputs

/-- C10: a negative `steps` argument does not raise: the loop body never
runs, so the history is exactly the initial record (step index `0`) and all
five summary scores equal the initial score, while `total_steps` echoes the
negative argument. -/
theorem simulate_negative_steps (steps : ℤ) (h : steps < 0)
    (rules : List (Var × Rule)) (handlers : List EventHandler)
    (init : SystemState) (record_history : Bool) :
    (TimeSphere.simulate rules handlers init steps record_history).steps.length = 1 ∧
    (TimeSphere.simulate rules handlers init steps record_history).steps.map
      TimeStep.step = [0] ∧
    (TimeSphere.simulate rules handlers init steps record_history).summary.total_steps =
      steps ∧
    (TimeSphere.simulate rules handlers init steps record_history).summary.initial_intelligence =
      (evalIntelligence init.inputs).1 ∧
    (TimeSphere.simulate rules handlers init steps record_history).summary.final_intelligence =
      (evalIntelligence init.inputs).1 ∧
    (TimeSphere.simulate rules handlers init steps record_history).summary.max_intelligence =
      (evalIntelligence init.inputs).1 ∧
    (TimeSphere.simulate rules handlers init steps record_history).summary.min_intelligence =
      (evalIntelligence init.inputs).1 ∧
    (TimeSphere.simulate rules handlers init steps record_history).summary.avg_intelligence =
      (evalIntelligence init.inputs).1 := by
  have htoNat : steps.toNat = 0 := Int.toNat_of_nonpos h.le
  refine ⟨?_, ?_, rfl, rfl, ?_, ?_, ?_, ?_⟩ <;>
    simp [TimeSphere.simulate, htoNat, simLoop, listMax, listMin]

/-- Witness for C10 at `steps = -3`. -/
theorem simulate_negative_steps_witness :
    (TimeSphere.simulate demoRules [] demoState (-3) true).steps.length = 1 ∧
    (TimeSphere.simulate demoRules [] demoState (-3) true).summary.total_steps = -3 :=
  ⟨(simulate_negative_steps (-3) (by norm_num) demoRules [] demoState true).1,
   (simulate_negative_steps (-3) (by norm_num) demoRules [] demoState true).2.2.1⟩

/-- C1: the summary is computed from the RECORDED history list, so with
`record_history=False` the run from score `1` whose actual final step
scores `0` still reports `final_intelligence = 1` (the initial score),
while the identical run with `record_history=True` reports `0` — the
summary depends on the recording flag and misses the realized final step. -/
theorem simulate_record_history_false_summary :
    (TimeSphere.simulate demoRules [] demoState 1 false).summary.final_intelligence = 1 ∧
    (TimeSphere.simulate demoRules [] demoState 1 true).summary.final_intelligence = 0 ∧
    (TimeSphere.simulate demoRules [] demoState 1 false).summary.initial_intelligence = 1 := by
  norm_num [TimeSphere.simulate, TimeSphere.step, simLoop, applyRules, demoRules,
    demoState, demoRuleA, onesInputs, evalIntelligence, compute_intelligence,
    qmax, qmin, Function.update_apply, List.getLastD]

/-- C7: trend classification.  Any run history has non-negative recorded
scores (clamped products are non-negative), stated here as a hypothesis.
With fewer than 3 scores the trend is the explicit insufficient-data value;
with at least 3, `accelerating_growth` holds iff the second-half mean
strictly exceeds `11/10` of the first-half mean, `declining` iff it is
strictly below `9/10` of it, `stable` otherwise — in particular a
second-half mean of exactly `11/10` (or `9/10`) of the first is stable. -/
theorem analyze_trends_classification (history : List TimeStep)
    (info : TrendInfo)
    (hok : TimeSphere.analyze_trends history = Except.ok info)
    (hnn : ∀ ts ∈ history, 0 ≤ ts.intelligence.score) :
    ((scoresOf history).length < 3 → info.trend = Trend.insufficient_data) ∧
    (3 ≤ (scoresOf history).length →
      (info.trend = Trend.accelerating_growth ↔
        secondHalfAvg (scoresOf history) >
          firstHalfAvg (scoresOf history) * (11 / 10)) ∧
      (info.trend = Trend.declining ↔
        secondHalfAvg (scoresOf history) <
          firstHalfAvg (scoresOf history) * (9 / 10)) ∧
      (info.trend = Trend.stable ↔
        (firstHalfAvg (scoresOf history) * (9 / 10) ≤
            secondHalfAvg (scoresOf history) ∧
          secondHalfAvg (scoresOf history) ≤
            firstHalfAvg (scoresOf history) * (11 / 10))) ∧
      (secondHalfAvg (scoresOf history) =
          firstHalfAvg (scoresOf history) * (11 / 10) →
        info.trend = Trend.stable) ∧
      (secondHalfAvg (scoresOf history) =
          firstHalfAvg (scoresOf history) * (9 / 10) →
        info.trend = Trend.stable)) := by
  cases history with
  | nil => simp [TimeSphere.analyze_trends] at hok
  | cons a l =>
    have hfha : 0 ≤ firstHalfAvg (scoresOf (a :: l)) := by
      apply div_nonneg
      · apply List.sum_nonneg
        intro x hx
        obtain ⟨ts, hts, rfl⟩ := List.mem_map.mp (List.take_subset _ _ hx)
        exact hnn ts hts
      · exact Nat.cast_nonneg _
    simp only [TimeSphere.analyze_trends, List.isEmpty_cons, Bool.false_eq_true,
      if_false] at hok
    obtain rfl := Except.ok.inj hok
    constructor
    · intro h3
      dsimp only
      rw [if_pos h3]
    · intro h3
      dsimp only
      rw [if_neg (Nat.not_lt.mpr h3)]
      split_ifs with h1 h2
      · exact ⟨iff_of_true rfl h1,
          iff_of_false (by decide) (by intro h; linarith),
          iff_of_false (by decide) (by rintro ⟨h9, h11⟩; linarith),
          fun heq => absurd h1 (by rw [heq]; exact lt_irrefl _),
          fun heq => absurd h1 (by intro h; nlinarith)⟩
      · exact ⟨iff_of_false (by decide) h1,
          iff_of_true rfl h2,
          iff_of_false (by decide) (by rintro ⟨h9, h11⟩; linarith),
          fun heq => absurd h2 (by intro h; linarith),
          fun heq => absurd h2 (by rw [heq]; exact lt_irrefl _)⟩
      · exact ⟨iff_of_false (by decide) h1,
          iff_of_false (by decide) h2,
          iff_of_true rfl ⟨not_lt.mp h2, not_lt.mp h1⟩,
          fun _ => rfl, fun _ => rfl⟩

/-- Helper: `analyze_trends` on the two-record history evaluates to the
insufficient-data dict. -/
theorem analyze_trends_shortHistory :
    TimeSphere.analyze_trends shortHistory =
      Except.ok ⟨Trend.insufficient_data, [], 0, 0⟩ := by
  norm_num [TimeSphere.analyze_trends, shortHistory, trivialTs, scoresOf,
    listMax, listMin, qmax, qmin, List.filterMap]

/-- Helper: every score in the two-record history is non-negative. -/
theorem shortHistory_nonneg :
    ∀ ts ∈ shortHistory, 0 ≤ ts.intelligence.score := by
  intro ts hts
  simp only [shortHistory, List.mem_cons, List.not_mem_nil, or_false] at hts
  rcases hts with rfl | rfl <;> exact zero_le_one

/-- Witness for C7: the two-record history is classified insufficient. -/
theorem analyze_trends_classification_witness :
    (⟨Trend.insufficient_data, [], 0, 0⟩ : TrendInfo).trend =
      Trend.insufficient_data :=
  (analyze_trends_classification shortHistory ⟨Trend.insufficient_data, [], 0, 0⟩
      analyze_trends_shortHistory shortHistory_nonneg).1 (by decide)

/-- Helper: a successful dict lookup comes from an actual entry. -/
theorem alookup_mem {β : Type} (l : List (String × β)) (key : String) (v : β)
    (h : alookup l key = some v) : (key, v) ∈ l := by
  induction l with
  | nil => cases h
  | cons p t ih =>
    obtain ⟨k, w⟩ := p
    by_cases hk : k = key
    · subst hk
      simp only [alookup, eq_self_iff_true, if_true, Option.some.injEq] at h
      subst h
      exact List.mem_cons_self _ _
    · simp only [alookup, if_neg hk] at h
      exact List.mem_cons_of_mem _ (ih h)

/-- Helper: appending a fresh key makes it found. -/
theorem alookup_append_fresh {β : Type} (l : List (String × β)) (key : String)
    (v : β) (h : alookup l key = none) :
    alookup (l ++ [(key, v)]) key = some v := by
  induction l with
  | nil => simp [alookup]
  | cons p t ih =>
    obtain ⟨k, w⟩ := p
    by_cases hk : k = key
    · subst hk
      simp [alookup] at h
    · simp only [alookup, if_neg hk] at h
      simp only [List.cons_append, alookup, if_neg hk]
      exact ih h

/-- Helper: after a dict overwrite, the key holds the new value. -/
theorem alookup_aset {β : Type} (l : List (String × β)) (key : String) (v : β) :
    alookup (aset l key v) key = some v := by
  induction l with
  | nil => simp [aset, alookup]
  | cons p t ih =>
    obtain ⟨k, w⟩ := p
    by_cases hk : k = key
    · subst hk
      simp [aset, alookup]
    · rw [aset, if_neg hk, alookup, if_neg hk]
      exact ih

/-- C8 amended: on a well-formed registry, `get_by_type(C)` returns exactly
the registered extensions whose CONCRETE class name equals `C.__name__`,
enabled or not; an extension registered as a proper subclass of the queried
type (different `__name__`, same declared kind) is not returned. -/
theorem get_by_type_amended (reg : ExtensionRegistry) (hwf : RegistryWF reg)
    (e : Extension) (q : ExtClass) :
    e ∈ reg.get_by_type q ↔
      (reg.get e.name = some e ∧ e.cls.className = q.className) := by
  constructor
  · intro he
    rcases hl : alookup reg.extensions_by_type q.className with _ | l
    · rw [ExtensionRegistry.get_by_type, hl] at he
      cases he
    · rw [ExtensionRegistry.get_by_type, hl] at he
      have hp := hwf.1 (q.className, l) (alookup_mem _ _ _ hl) e he
      exact ⟨hp.2, hp.1⟩
  · rintro ⟨hget, hcls⟩
    have hmem := alookup_mem _ _ _ hget
    have h2 := hwf.2 (e.name, e) hmem
    rw [ExtensionRegistry.get_by_type, hcls] at h2
    rw [ExtensionRegistry.get_by_type]
    exact h2

/-- Helper: the one-extension registry is well formed. -/
theorem regWithMomentum_wf : RegistryWF regWithMomentum := by
  unfold RegistryWF
  decide

/-- C8 counterexample: `momentumExt` is registered, declares the
update-rule capability kind, yet `get_by_type(UpdateRuleExtension)` omits
it (the type index is keyed by the concrete class name). -/
theorem get_by_type_subclass_counterexample :
    RegistryWF regWithMomentum ∧
    regWithMomentum.get "momentum" = some momentumExt ∧
    momentumExt.cls.kind = UpdateRuleExtension.kind ∧
    momentumExt ∉ regWithMomentum.get_by_type UpdateRuleExtension ∧
    momentumExt ∈ regWithMomentum.get_by_type MomentumUpdateRule := by
  refine ⟨regWithMomentum_wf, rfl, rfl, ?_, ?_⟩ <;> decide

/-- Witness for C8 amended: on the concrete one-extension registry, bucket
membership coincides with name-registration plus class-name equality. -/
theorem get_by_type_amended_witness :
    momentumExt ∈ regWithMomentum.get_by_type MomentumUpdateRule ↔
      (regWithMomentum.get momentumExt.name = some momentumExt ∧
        momentumExt.cls.className = MomentumUpdateRule.className) :=
  get_by_type_amended regWithMomentum regWithMomentum_wf momentumExt
    MomentumUpdateRule

/-- C9 amended: a duplicate-name `register` raises without touching the
registry (the prior registration stays queryable); but when the name is
fresh and the extension's `initialize()` hook raises, the extension is
already stored in BOTH indices when the fault propagates, because the
source stores first and initializes last. -/
theorem register_fault_semantics (reg : ExtensionRegistry) (e : Extension) :
    ((∃ e0, reg.get e.name = some e0) →
      reg.register e = (Except.error (RegError.duplicateName e.name), reg)) ∧
    (reg.get e.name = none → e.initRaises = true →
      (reg.register e).1 = Except.error RegError.initFailure ∧
      (reg.register e).2.get e.name = some e ∧
      e ∈ (reg.register e).2.get_by_type e.cls) := by
  constructor
  · rintro ⟨e0, h0⟩
    rw [ExtensionRegistry.get] at h0
    rw [ExtensionRegistry.register, if_pos (by rw [h0]; rfl)]
  · intro hfresh hraise
    rw [ExtensionRegistry.get] at hfresh
    have hreg : reg.register e =
        (Except.error RegError.initFailure,
          ⟨reg.extensions ++ [(e.name, e)],
            match alookup reg.extensions_by_type e.cls.className with
            | some l => aset reg.extensions_by_type e.cls.className (l ++ [e])
            | none => reg.extensions_by_type ++ [(e.cls.className, [e])]⟩) := by
      rw [ExtensionRegistry.register, if_neg (by rw [hfresh]; simp), if_pos hraise]
    refine ⟨by rw [hreg], ?_, ?_⟩
    · rw [hreg, ExtensionRegistry.get]
      exact alookup_append_fresh _ _ _ hfresh
    · rw [hreg, ExtensionRegistry.get_by_type]
      rcases hl : alookup reg.extensions_by_type e.cls.className with _ | l
      · simp only [hl]
        rw [alookup_append_fresh _ _ _ hl]
        exact List.mem_singleton_self _
      · simp only [hl]
        rw [alookup_aset]
        exact List.mem_append_right _ (List.mem_singleton_self _)

/-- C9 counterexample: a `register` call that raises (failing `initialize`
hook) does NOT leave the registry as it was: the extension is stored in
both indices even though the call raised. -/
theorem register_init_failure_counterexample :
    emptyRegistry.get "bad" = none ∧
    (emptyRegistry.register badInitExt).1 = Except.error RegError.initFailure ∧
    (emptyRegistry.register badInitExt).2.get "bad" = some badInitExt ∧
    badInitExt ∈ (emptyRegistry.register badInitExt).2.get_by_type
      ThresholdAlertHandler := by
  refine ⟨rfl, rfl, rfl, ?_⟩
  decide

/-- Witness for C9 amended at the concrete failing-initialize extension. -/
theorem register_fault_semantics_witness :
    (emptyRegistry.register badInitExt).1 = Except.error RegError.initFailure ∧
    (emptyRegistry.register badInitExt).2.get badInitExt.name = some badInitExt ∧
    badInitExt ∈ (emptyRegistry.register badInitExt).2.get_by_type badInitExt.cls :=
  (register_fault_semantics emptyRegistry badInitExt).2 rfl rfl
